import Mathlib

/-!
Verification of the SOCKS5 batch proxy checker (`check.py`).

The development shallowly embeds the checker's core: `udp_connect_test`
(the SOCKS5 handshake / UDP ASSOCIATE probe), `test_proxy_connection`
(the bounded retry orchestrator with its TCP probe, UDP probe and HTTP
egress scan), `check_socks5` (line parsing and result construction),
`get_location` (the GeoIP lookup wrapper), and the thread-pool scheduler
of `process_proxy` / `run`.

Network and clock effects are modelled by oracles (`Net`, `UdpConv`):
a field of the oracle records what each socket/HTTP operation would
return at a given retry attempt.  Every probe or HTTP request the code
performs is additionally recorded as an event (`Ev`), so statements
about "no network I/O" or call ordering are statements about the
produced event trace.
-/

namespace Socks5Check

/-- Outcome classes of a raised socket exception, as distinguished by the
`except` clauses of `udp_connect_test` (socket.timeout,
ConnectionRefusedError, anything else with its message). -/
inductive NetEx
  | timeout
  | connRefused
  | other (msg : String)
deriving DecidableEq

/-- Message produced by the `except` clauses at the end of
`udp_connect_test`. -/
def udpExMsg : NetEx → String
  | NetEx.timeout => "UDP检测超时"
  | NetEx.connRefused => "连接被拒绝"
  | NetEx.other m => ("UDP检测异常: ") ++ m

/-- What the proxy-side conversation of one `udp_connect_test` call would
yield: the connect step, and the bytes returned by each of the three
`recv` calls (method-selection reply, auth reply, UDP ASSOCIATE reply).
`Except.error e` means the corresponding socket operation raised. -/
structure UdpConv where
  connect : Except NetEx Unit
  methodReply : Except NetEx (List Nat)
  authReply : Except NetEx (List Nat)
  assocReply : Except NetEx (List Nat)

/-- Python truthiness of an optional credential string: `None` and `''`
are falsy. -/
def credTruthy : Option String → Bool
  | none => false
  | some s => !s.isEmpty

/-- The `error_codes` table of `udp_connect_test`, with its
"未知错误代码" default. -/
def udpErrName (c : Nat) : String :=
  match c with
  | 1 => "一般SOCKS服务器失败"
  | 2 => "连接不被允许"
  | 3 => "网络不可达"
  | 4 => "主机不可达"
  | 5 => "连接被拒绝"
  | 6 => "TTL过期"
  | 7 => "命令不支持"
  | 8 => "地址类型不支持"
  | _ => ("未知错误代码: ") ++ toString c

/-- The tail of `udp_connect_test` from the UDP ASSOCIATE `recv(10)` on:
length and version checks on the reply, then the reply-code dispatch.
Indices 0 and 1 are read with a default that is never used, because the
length test guards them (`len(response) < 6` fails first). -/
def assocPhase (conv : UdpConv) : Bool × String :=
  match conv.assocReply with
  | Except.error e => (false, udpExMsg e)
  | Except.ok r =>
    if r.length < 6 then (false, "UDP ASSOCIATE响应太短")
    else if r.getD 0 0 ≠ 5 then (false, "无效的SOCKS5响应")
    else if r.getD 1 0 = 0 then (true, "UDP代理支持确认")
    else (false, ("UDP ASSOCIATE失败: ") ++ udpErrName (r.getD 1 0))

/-- `CheckerThread.udp_connect_test`: SOCKS5 method selection, optional
username/password subnegotiation, then the UDP ASSOCIATE exchange.
Mirrors the source's control flow; the `[5, m]` pattern is exactly the
source's `len(response) == 2 and response[0] == 0x05` passing case. -/
def udp_connect_test (conv : UdpConv) (user pwd : Option String) : Bool × String :=
  match conv.connect with
  | Except.error e => (false, udpExMsg e)
  | Except.ok _ =>
    match conv.methodReply with
    | Except.error e => (false, udpExMsg e)
    | Except.ok resp =>
      match resp with
      | [5, m] =>
        if m = 2 then
          if ¬ (credTruthy user = true ∧ credTruthy pwd = true) then
            (false, "需要用户名/密码认证")
          else
            match conv.authReply with
            | Except.error e => (false, udpExMsg e)
            | Except.ok ar =>
              if ar.length ≠ 2 ∨ ar.getD 1 0 ≠ 0 then (false, "用户名/密码认证失败")
              else assocPhase conv
        else if m = 0 then assocPhase conv
        else (false, ("不支持的认证方法: ") ++ toString m)
      | _ => (false, "SOCKS5握手失败")

/-- Python's `str.strip()` on a character list: drop leading and
trailing whitespace. -/
def pyStripChars (cs : List Char) : List Char :=
  ((cs.dropWhile Char.isWhitespace).reverse.dropWhile Char.isWhitespace).reverse

/-- Python's `str.strip()`. -/
def pyStrip (s : String) : String :=
  ⟨pyStripChars s.data⟩

/-- Splitting worker for `pySplit`: `acc` holds the current field,
reversed. -/
def pySplitAux (sep : Char) : List Char → List Char → List (List Char)
  | [], acc => [acc.reverse]
  | c :: rest, acc =>
    if c = sep then acc.reverse :: pySplitAux sep rest []
    else pySplitAux sep rest (c :: acc)

/-- Python's `str.split(sep)` for a one-character separator: split on
every occurrence, keeping empty fields (`''.split(sep) == ['']`). -/
def pySplit (sep : Char) (s : String) : List String :=
  (pySplitAux sep s.data []).map (fun cs => ⟨cs⟩)

/-- Reply of one HTTP GET through the proxy. -/
structure HttpResp where
  status : Nat
  body : String
deriving DecidableEq

/-- Network oracle for one endpoint's check: what each operation would
return at retry attempt `a`.  `tcpConn a = none` means the raw TCP
connect of attempt `a` succeeds, `some e` that it raises with message
`e`; `udpConv a` is the SOCKS5 conversation of attempt `a`; `http a j`
is the GET against egress endpoint number `j` during attempt `a`;
`latency a j` the measured milliseconds of that GET; `geo ip` what
`self.get_location ip` returns. -/
structure Net where
  tcpConn : Nat → Option String
  udpConv : Nat → UdpConv
  http : Nat → Nat → Except String HttpResp
  latency : Nat → Nat → Nat
  geo : String → String × String

/-- `CheckerThread.tcp_connect_test`: create a connection and close it,
returning `(True, '')` or `(False, str(e))`. -/
def tcp_connect_test (net : Net) (a : Nat) : Bool × String :=
  match net.tcpConn a with
  | none => (true, "")
  | some e => (false, e)

/-- One entry of the `test_endpoints` list. -/
structure Endpoint where
  url : String
  timeout : Nat
  ty : String
deriving DecidableEq

/-- The fixed `test_endpoints` list of `test_proxy_connection`. -/
def test_endpoints : List Endpoint :=
  [⟨"http://ifconfig.me/ip", 5, "text"⟩,
   ⟨"http://api.ipify.org", 5, "text"⟩,
   ⟨"http://icanhazip.com", 5, "text"⟩,
   ⟨"http://ident.me", 5, "text"⟩,
   ⟨"http://ipinfo.io/ip", 5, "text"⟩]

/-- Events recording the side effects the checker performs: the TCP
probe and UDP probe of an attempt, one proxied HTTP GET, and one call
of `self.get_location`. -/
inductive Ev
  | tcpProbe (attempt : Nat)
  | udpProbe (attempt : Nat)
  | httpGet (attempt : Nat) (url : String)
  | geoLookup (attempt : Nat) (ip : String)
deriving DecidableEq

/-- The attempt a recorded event belongs to. -/
def evAttempt : Ev → Nat
  | Ev.tcpProbe a => a
  | Ev.udpProbe a => a
  | Ev.httpGet a _ => a
  | Ev.geoLookup a _ => a

/-- The inner `for endpoint in test_endpoints` loop of
`test_proxy_connection`: try each endpoint in order; on the first
HTTP 200 text reply, strip the body, resolve its geolocation and stop.
`j` numbers the endpoints for the oracle; the returned quadruple is
`(ip_resp, country, region, latency)`. -/
def try_endpoints (net : Net) (a : Nat) : Nat → List Endpoint → Option (String × String × String × Nat) × List Ev
  | _, [] => (none, [])
  | j, ep :: rest =>
    match net.http a j with
    | Except.error _ =>
      let r := try_endpoints net a (j+1) rest
      (r.1, Ev.httpGet a ep.url :: r.2)
    | Except.ok resp =>
      if resp.status = 200 then
        if ep.ty = "text" then
          let ipr := pyStrip resp.body
          let loc := net.geo ipr
          (some (ipr, loc.1, loc.2, net.latency a j),
           [Ev.httpGet a ep.url, Ev.geoLookup a ipr])
        else
          let r := try_endpoints net a (j+1) rest
          (r.1, Ev.httpGet a ep.url :: r.2)
      else
        let r := try_endpoints net a (j+1) rest
        (r.1, Ev.httpGet a ep.url :: r.2)

/-- The 7-tuple `test_proxy_connection` returns:
`(ok, ip_resp, country, region, latency, tcp_enabled, udp_enabled)`. -/
structure TestOutcome where
  ok : Bool
  ipResp : String
  country : String
  region : String
  latency : Nat
  tcpEnabled : Bool
  udpEnabled : Bool
deriving DecidableEq

/-- The `for attempt in range(max_retries)` loop of
`test_proxy_connection`.  `a` is the current attempt number, `fuel` the
remaining iterations, `tcpE`/`udpE` the current values of the
`tcp_enabled`/`udp_enabled` variables (initialised to `False` before
the loop; `tcp_enabled` is reassigned every iteration, `udp_enabled`
only in iterations whose TCP probe succeeded). -/
def tpcLoop (net : Net) (user pwd : Option String) : Nat → Nat → Bool → Bool → TestOutcome × List Ev
  | _, 0, tcpE, udpE => (⟨false, "", "", "", 0, tcpE, udpE⟩, [])
  | a, fuel + 1, _, udpE =>
    let t := tcp_connect_test net a
    if t.1 then
      let u := udp_connect_test (net.udpConv a) user pwd
      let eg := try_endpoints net a 0 test_endpoints
      match eg.1 with
      | some (ipr, ctry, rgn, lat) =>
        (⟨true, ipr, ctry, rgn, lat, t.1, u.1⟩, Ev.tcpProbe a :: Ev.udpProbe a :: eg.2)
      | none =>
        let rest := tpcLoop net user pwd (a+1) fuel t.1 u.1
        (rest.1, Ev.tcpProbe a :: Ev.udpProbe a :: (eg.2 ++ rest.2))
    else
      let rest := tpcLoop net user pwd (a+1) fuel t.1 udpE
      (rest.1, Ev.tcpProbe a :: rest.2)

/-- `CheckerThread.test_proxy_connection` (the proxy URL built from
`ip`, `port` and the credentials is carried inside the oracle's `http`
field). -/
def test_proxy_connection (net : Net) (ip port : String) (user pwd : Option String)
    (max_retries : Nat) : TestOutcome × List Ev :=
  tpcLoop net user pwd 0 max_retries false false

/-- The result dictionary `check_socks5` builds; `latency = none` models
the empty-string latency of the failure dictionaries. -/
structure CheckResult where
  proxy : String
  ok : Bool
  ip : String
  country : String
  region : String
  latency : Option Nat
  tcp_enabled : Bool
  udp_enabled : Bool
  error : String
deriving DecidableEq

/-- The field-splitting prelude of `check_socks5`: split the stripped
line on `|` when the raw line contains one, else on `:` when it
contains one, else no fields at all. -/
def parseProxy (proxy : String) : List String :=
  if proxy.data.contains '|' then pySplit '|' (pyStrip proxy)
  else if proxy.data.contains ':' then pySplit ':' (pyStrip proxy)
  else []

/-- The success/failure result dictionaries of `check_socks5` built from
`test_proxy_connection`'s tuple. -/
def buildResult (proxy : String) (o : TestOutcome) : CheckResult :=
  if o.ok then
    { proxy := proxy, ok := true, ip := o.ipResp, country := o.country, region := o.region,
      latency := some o.latency, tcp_enabled := o.tcpEnabled, udp_enabled := o.udpEnabled,
      error := "" }
  else
    { proxy := proxy, ok := false, ip := "", country := "", region := "",
      latency := none, tcp_enabled := o.tcpEnabled, udp_enabled := o.udpEnabled,
      error := "连接失败" }

/-- `CheckerThread.check_socks5`: parse the line; four fields run the
authenticated check, two fields the anonymous one, anything else is the
immediate format-error dictionary (and performs no network operation:
its event trace is empty). -/
def check_socks5 (net : Net) (proxy : String) : CheckResult × List Ev :=
  match parseProxy proxy with
  | [ip, port, user, pwd] =>
    let r := test_proxy_connection net ip port (some user) (some pwd) 3
    (buildResult proxy r.1, r.2)
  | [ip, port] =>
    let r := test_proxy_connection net ip port none none 3
    (buildResult proxy r.1, r.2)
  | _ =>
    ({ proxy := proxy, ok := false, ip := "", country := "未知", region := "未知",
       latency := none, tcp_enabled := false, udp_enabled := false, error := "格式错误" }, [])

/-- What `reader.city(ip)` exposes of a found city record, as
`get_location` reads it: the country's `zh-CN` display name when
present and its default name, whether the record has subdivisions, and
the most specific subdivision's `zh-CN`/default names. -/
structure GeoCity where
  countryZh : Option String
  countryName : String
  hasSubdivisions : Bool
  subdivZh : Option String
  subdivName : String

/-- `CheckerThread.get_location`: `reader = none` models the reader
failing to initialise; `Except.error` models `reader.city` raising
(bad IP, closed database), caught by the bare `except`. -/
def get_location (reader : Option (String → Except Unit GeoCity)) (ip : String) :
    String × String :=
  match reader with
  | none => ("未知", "未知")
  | some city =>
    match city ip with
    | Except.error _ => ("未知", "未知")
    | Except.ok c =>
      (c.countryZh.getD c.countryName,
       if c.hasSubdivisions then c.subdivZh.getD c.subdivName else (""))

/-! ## Helper predicates used by the theorem statements -/

/-- The TCP probe of attempt `a` succeeds. -/
def tcpOkB (net : Net) (a : Nat) : Bool :=
  (tcp_connect_test net a).1

/-- The UDP probe of attempt `a` succeeds. -/
def udpOkB (net : Net) (user pwd : Option String) (a : Nat) : Bool :=
  (udp_connect_test (net.udpConv a) user pwd).1

/-- Endpoint number `j` would answer attempt `a` with an HTTP 200 text
reply. -/
def ep200 (net : Net) (a j : Nat) (ep : Endpoint) : Bool :=
  match net.http a j with
  | Except.error _ => false
  | Except.ok resp => decide (resp.status = 200) && decide (ep.ty = "text")

/-- Some endpoint of `eps` (numbered from `j`) would answer attempt `a`
with an HTTP 200 text reply. -/
def egressHitB (net : Net) (a : Nat) : Nat → List Endpoint → Bool
  | _, [] => false
  | j, ep :: rest => ep200 net a j ep || egressHitB net a (j+1) rest

/-! ## Lemmas about the egress scan -/

theorem try_endpoints_isSome (net : Net) (a : Nat) :
    ∀ (eps : List Endpoint) (j : Nat),
      (try_endpoints net a j eps).1.isSome = egressHitB net a j eps := by
  intro eps
  induction eps with
  | nil => intro j; rfl
  | cons ep rest ih =>
    intro j
    simp only [try_endpoints, egressHitB, ep200]
    cases h : net.http a j with
    | error e => simp [ih]
    | ok resp =>
      by_cases h200 : resp.status = 200
      · by_cases hty : ep.ty = "text"
        · simp [h200, hty]
        · simp [h200, hty, ih]
      · simp [h200, ih]

/-- Every event the egress scan records belongs to attempt `a`. -/
theorem try_endpoints_attempt (net : Net) (a : Nat) :
    ∀ (eps : List Endpoint) (j : Nat) (e : Ev),
      e ∈ (try_endpoints net a j eps).2 → evAttempt e = a := by
  intro eps
  induction eps with
  | nil => intro j e he; simp [try_endpoints] at he
  | cons ep rest ih =>
    intro j e he
    simp only [try_endpoints] at he
    cases h : net.http a j with
    | error err =>
      rw [h] at he
      simp only [List.mem_cons] at he
      rcases he with rfl | he
      · rfl
      · exact ih (j+1) e he
    | ok resp =>
      rw [h] at he
      by_cases h200 : resp.status = 200
      · by_cases hty : ep.ty = "text"
        · simp only [h200, hty, if_true] at he
          simp only [List.mem_cons, List.mem_singleton] at he
          rcases he with rfl | rfl | h'
          · rfl
          · rfl
          · simp at h'
        · simp only [h200, hty, if_true, if_false] at he
          simp only [List.mem_cons] at he
          rcases he with rfl | he
          · rfl
          · exact ih (j+1) e he
      · simp only [h200, if_false] at he
        simp only [List.mem_cons] at he
        rcases he with rfl | he
        · rfl
        · exact ih (j+1) e he

/-! ## Lemmas about the retry loop -/

theorem exists_lt_succ_shift (P : Nat → Prop) (a fuel : Nat) :
    (∃ k, k < fuel + 1 ∧ P (a + k)) ↔ P a ∨ ∃ k, k < fuel ∧ P (a + 1 + k) := by
  constructor
  · rintro ⟨k, hk, hp⟩
    cases k with
    | zero => left; simpa using hp
    | succ k' =>
      right
      refine ⟨k', by omega, ?_⟩
      have : a + 1 + k' = a + (k' + 1) := by omega
      rw [this]; exact hp
  · rintro (hp | ⟨k, hk, hp⟩)
    · exact ⟨0, by omega, by simpa using hp⟩
    · refine ⟨k + 1, by omega, ?_⟩
      have : a + (k + 1) = a + 1 + k := by omega
      rw [this]; exact hp

/-- The loop yields `ok = true` exactly when some attempt within the
remaining budget has a successful TCP probe and some egress endpoint
answering 200. -/
theorem tpcLoop_ok_iff (net : Net) (user pwd : Option String) :
    ∀ (fuel a : Nat) (tcpE udpE : Bool),
      (tpcLoop net user pwd a fuel tcpE udpE).1.ok = true
        ↔ ∃ k, k < fuel ∧ tcpOkB net (a + k) = true ∧
            egressHitB net (a + k) 0 test_endpoints = true := by
  intro fuel
  induction fuel with
  | zero => intro a tcpE udpE; simp [tpcLoop]
  | succ fuel ih =>
    intro a tcpE udpE
    rw [exists_lt_succ_shift
      (fun x => tcpOkB net x = true ∧ egressHitB net x 0 test_endpoints = true) a fuel]
    by_cases ht : (tcp_connect_test net a).1 = true
    · cases heg : (try_endpoints net a 0 test_endpoints).1 with
      | some v =>
        obtain ⟨ipr, ctry, rgn, lat⟩ := v
        have hhit : egressHitB net a 0 test_endpoints = true := by
          rw [← try_endpoints_isSome, heg]; rfl
        simp only [tpcLoop, ht, if_true, heg]
        constructor
        · intro _; exact Or.inl ⟨by simpa [tcpOkB] using ht, hhit⟩
        · intro _; trivial
      | none =>
        have hhit : egressHitB net a 0 test_endpoints = false := by
          rw [← try_endpoints_isSome, heg]; rfl
        simp only [tpcLoop, ht, if_true, heg]
        rw [ih (a + 1)]
        simp [hhit]
    · have ht' : (tcp_connect_test net a).1 = false := by
        simpa using ht
      have htok : tcpOkB net a = false := by simpa [tcpOkB] using ht'
      simp only [tpcLoop, ht', Bool.false_eq_true, if_false]
      rw [ih (a + 1)]
      simp [htok]

/-- Value of the `tcp_enabled` variable after the loop runs out of
fuel, starting from attempt `a` with current value `tcpE`: the variable
is reassigned by every iteration. -/
def tcpLastB (net : Net) : Nat → Nat → Bool → Bool
  | _, 0, tcpE => tcpE
  | a, fuel + 1, _ => tcpLastB net (a + 1) fuel (tcpOkB net a)

/-- Value of the `udp_enabled` variable after the loop runs out of
fuel: the variable is reassigned only by iterations whose TCP probe
succeeded. -/
def udpLastB (net : Net) (user pwd : Option String) : Nat → Nat → Bool → Bool
  | _, 0, udpE => udpE
  | a, fuel + 1, udpE =>
    udpLastB net user pwd (a + 1) fuel
      (if tcpOkB net a then udpOkB net user pwd a else udpE)

/-- On exhaustion (`ok = false`) the loop's outcome is the fixed empty
failure tuple carrying the last-assigned `tcp_enabled`/`udp_enabled`
values. -/
theorem tpcLoop_fail_outcome (net : Net) (user pwd : Option String) :
    ∀ (fuel a : Nat) (tcpE udpE : Bool),
      (tpcLoop net user pwd a fuel tcpE udpE).1.ok = false →
      (tpcLoop net user pwd a fuel tcpE udpE).1 =
        ⟨false, "", "", "", 0, tcpLastB net a fuel tcpE,
         udpLastB net user pwd a fuel udpE⟩ := by
  intro fuel
  induction fuel with
  | zero => intro a tcpE udpE _; rfl
  | succ fuel ih =>
    intro a tcpE udpE hok
    by_cases ht : (tcp_connect_test net a).1 = true
    · have htok : tcpOkB net a = true := ht
      cases heg : (try_endpoints net a 0 test_endpoints).1 with
      | some v =>
        obtain ⟨ipr, ctry, rgn, lat⟩ := v
        simp only [tpcLoop, ht, if_true, heg] at hok
        simp at hok
      | none =>
        simp only [tpcLoop, ht, if_true, heg] at hok ⊢
        rw [ih (a + 1)]
        · simp only [tcpLastB, udpLastB, htok, ht, if_true]
          rfl
        · exact hok
    · have ht' : (tcp_connect_test net a).1 = false := by simpa using ht
      have htok : tcpOkB net a = false := ht'
      simp only [tpcLoop, ht', Bool.false_eq_true, if_false] at hok ⊢
      rw [ih (a + 1)]
      · simp only [tcpLastB, udpLastB, htok, ht', Bool.false_eq_true, if_false]
      · exact hok

/-- When every attempt's TCP probe fails, the loop makes exactly `fuel`
TCP probes (and nothing else), and ends with the failure tuple whose
`tcp_enabled` is false (for at least one iteration). -/
theorem tpcLoop_alltcpfail (net : Net) (user pwd : Option String) :
    ∀ (fuel a : Nat) (tcpE udpE : Bool),
      (∀ k, k < fuel → tcpOkB net (a + k) = false) →
      tpcLoop net user pwd a fuel tcpE udpE =
        (⟨false, "", "", "", 0, (if fuel = 0 then tcpE else false), udpE⟩,
         (List.range fuel).map (fun k => Ev.tcpProbe (a + k))) := by
  intro fuel
  induction fuel with
  | zero => intro a tcpE udpE _; rfl
  | succ fuel ih =>
    intro a tcpE udpE hfail
    have h0 : tcpOkB net a = false := by simpa using hfail 0 (by omega)
    have ht' : (tcp_connect_test net a).1 = false := h0
    simp only [tpcLoop, ht', Bool.false_eq_true, if_false]
    rw [ih (a + 1) false udpE (fun k hk => by
      have := hfail (k + 1) (by omega)
      have harith : a + 1 + k = a + (k + 1) := by omega
      rw [harith]; exact this)]
    rw [Prod.ext_iff]
    refine ⟨by simp [ite_self], ?_⟩
    rw [List.range_succ_eq_map, List.map_cons, List.map_map]
    simp only [Nat.add_zero]
    congr 1
    apply List.map_congr_left
    intro k _
    simp only [Function.comp_apply]
    congr 1
    omega

/-- Every event of the loop's trace belongs to an attempt ≥ `a`, and an
attempt whose TCP probe fails contributes nothing but its TCP-probe
event. -/
theorem tpcLoop_ev (net : Net) (user pwd : Option String) :
    ∀ (fuel a : Nat) (tcpE udpE : Bool) (e : Ev),
      e ∈ (tpcLoop net user pwd a fuel tcpE udpE).2 →
      a ≤ evAttempt e ∧
        (tcpOkB net (evAttempt e) = false → e = Ev.tcpProbe (evAttempt e)) := by
  intro fuel
  induction fuel with
  | zero => intro a tcpE udpE e he; simp [tpcLoop] at he
  | succ fuel ih =>
    intro a tcpE udpE e he
    by_cases ht : (tcp_connect_test net a).1 = true
    · have htok : tcpOkB net a = true := ht
      cases heg : (try_endpoints net a 0 test_endpoints).1 with
      | some v =>
        obtain ⟨ipr, ctry, rgn, lat⟩ := v
        simp only [tpcLoop, ht, if_true, heg, List.mem_cons] at he
        rcases he with rfl | rfl | he
        · exact ⟨le_refl a, fun hc => absurd hc (by simp [evAttempt, htok])⟩
        · exact ⟨le_refl a, fun hc => absurd hc (by simp [evAttempt, htok])⟩
        · have := try_endpoints_attempt net a test_endpoints 0 e he
          rw [this]
          exact ⟨le_refl a, fun hc => absurd hc (by simp [htok])⟩
      | none =>
        simp only [tpcLoop, ht, if_true, heg, List.mem_cons, List.mem_append] at he
        rcases he with rfl | rfl | he | he
        · exact ⟨le_refl a, fun hc => absurd hc (by simp [evAttempt, htok])⟩
        · exact ⟨le_refl a, fun hc => absurd hc (by simp [evAttempt, htok])⟩
        · have := try_endpoints_attempt net a test_endpoints 0 e he
          rw [this]
          exact ⟨le_refl a, fun hc => absurd hc (by simp [htok])⟩
        · have := ih (a + 1) _ _ e he
          exact ⟨by omega, this.2⟩
    · have ht' : (tcp_connect_test net a).1 = false := by simpa using ht
      simp only [tpcLoop, ht', Bool.false_eq_true, if_false, List.mem_cons] at he
      rcases he with rfl | he
      · exact ⟨le_refl a, fun _ => rfl⟩
      · have := ih (a + 1) _ _ e he
        exact ⟨by omega, this.2⟩

/-- If some attempt `k` within the budget would have both a TCP success
and an egress hit, the loop returns success and never runs anything
after attempt `k` (short-circuit). -/
theorem tpcLoop_shortcircuit (net : Net) (user pwd : Option String) :
    ∀ (fuel a : Nat) (tcpE udpE : Bool) (k : Nat),
      a ≤ k → k < a + fuel →
      tcpOkB net k = true → egressHitB net k 0 test_endpoints = true →
      ∀ e ∈ (tpcLoop net user pwd a fuel tcpE udpE).2, evAttempt e ≤ k := by
  intro fuel
  induction fuel with
  | zero => intro a tcpE udpE k h1 h2; omega
  | succ fuel ih =>
    intro a tcpE udpE k h1 h2 hk hhit e he
    by_cases ht : (tcp_connect_test net a).1 = true
    · cases heg : (try_endpoints net a 0 test_endpoints).1 with
      | some v =>
        obtain ⟨ipr, ctry, rgn, lat⟩ := v
        simp only [tpcLoop, ht, if_true, heg, List.mem_cons] at he
        rcases he with rfl | rfl | he
        · simpa [evAttempt] using h1
        · simpa [evAttempt] using h1
        · rw [try_endpoints_attempt net a test_endpoints 0 e he]; exact h1
      | none =>
        have hnhit : egressHitB net a 0 test_endpoints = false := by
          rw [← try_endpoints_isSome, heg]; rfl
        have hak : a ≠ k := by
          intro h; rw [h] at hnhit; rw [hnhit] at hhit; cases hhit
        simp only [tpcLoop, ht, if_true, heg, List.mem_cons, List.mem_append] at he
        rcases he with rfl | rfl | he | he
        · simpa [evAttempt] using h1
        · simpa [evAttempt] using h1
        · rw [try_endpoints_attempt net a test_endpoints 0 e he]; exact h1
        · exact ih (a + 1) _ _ k (by omega) (by omega) hk hhit e he
    · have ht' : (tcp_connect_test net a).1 = false := by simpa using ht
      have hak : a ≠ k := by
        intro h
        have : tcpOkB net a = false := ht'
        rw [h, hk] at this; cases this
      simp only [tpcLoop, ht', Bool.false_eq_true, if_false, List.mem_cons] at he
      rcases he with rfl | he
      · simpa [evAttempt] using h1
      · exact ih (a + 1) _ _ k (by omega) (by omega) hk hhit e he

/-! ## The concurrent scheduler (`process_proxy` / `run`)

`run` submits `process_proxy(idx, proxy)` for each input index to a
thread pool and waits for all of them.  Each worker performs, in order:
emit `result_signal(idx, ...)`; lock the mutex, increment
`progress_count` and read it, unlock; emit `progress_signal(current)`.
The mutex makes the increment-and-read atomic, but the progress
emission happens after the unlock.  We model this as an interleaving
machine: each worker is a three-step program, and a schedule is the
list of worker indices picked to take their next step. -/

/-- One worker of the pool: `pc` counts its completed steps
(0 = nothing yet, 1 = result emitted, 2 = counter incremented,
3 = progress emitted); `cur` is the counter value it read inside the
mutex. -/
structure Worker where
  pc : Nat
  cur : Nat
deriving DecidableEq

/-- Signals emitted by the workers, in emission order. -/
inductive SEv
  | result (idx : Nat)
  | progress (v : Nat)
deriving DecidableEq

/-- Scheduler state: the workers, the shared `progress_count`, and the
emitted-signal trace. -/
structure SchedSt where
  ws : Nat → Worker
  counter : Nat
  trace : List SEv

/-- Initial state of a batch. -/
def schedInit : SchedSt :=
  { ws := fun _ => ⟨0, 0⟩, counter := 0, trace := [] }

/-- Worker `i` (of a pool processing `n` inputs) takes its next step. -/
def wstep (n : Nat) (s : SchedSt) (i : Nat) : SchedSt :=
  if i < n then
    let w := s.ws i
    match w.pc with
    | 0 =>
      { ws := Function.update s.ws i ⟨1, w.cur⟩, counter := s.counter,
        trace := s.trace ++ [SEv.result i] }
    | 1 =>
      { ws := Function.update s.ws i ⟨2, s.counter + 1⟩, counter := s.counter + 1,
        trace := s.trace }
    | 2 =>
      { ws := Function.update s.ws i ⟨3, w.cur⟩, counter := s.counter,
        trace := s.trace ++ [SEv.progress w.cur] }
    | _ => s
  else s

/-- Run a batch of `n` inputs under the interleaving `sched`. -/
def runSched (n : Nat) (sched : List Nat) : SchedSt :=
  sched.foldl (wstep n) schedInit

/-- The progress values of a trace, in emission order. -/
def progressVals (t : List SEv) : List Nat :=
  t.filterMap (fun e => match e with | SEv.progress v => some v | _ => none)

/-- A list of naturals is non-decreasing. -/
def nondecreasing : List Nat → Bool
  | [] => true
  | [_] => true
  | x :: y :: rest => decide (x ≤ y) && nondecreasing (y :: rest)

/-- A schedule under which every worker finished all three steps. -/
def SchedComplete (n : Nat) (s : SchedSt) : Prop :=
  ∀ i, i < n → (s.ws i).pc = 3

/-! ### Counting helpers -/

theorem card_filter_split (n i : Nat) (hin : i < n) (q : Nat → Prop)
    [DecidablePred q] :
    ((Finset.range n).filter q).card =
      (((Finset.range n).erase i).filter q).card + (if q i then 1 else 0) := by
  have hmem : i ∈ Finset.range n := Finset.mem_range.mpr hin
  have hins : insert i ((Finset.range n).erase i) = Finset.range n :=
    Finset.insert_erase hmem
  conv_lhs => rw [← hins]
  rw [Finset.filter_insert]
  by_cases hq : q i
  · rw [if_pos hq, if_pos hq, Finset.card_insert_of_not_mem]
    intro hc
    exact (Finset.mem_erase.mp (Finset.mem_of_mem_filter i hc)).1 rfl
  · rw [if_neg hq, if_neg hq, Nat.add_zero]

theorem filter_erase_update (n i : Nat) (f : Nat → Worker) (w : Worker)
    (p : Worker → Prop) [DecidablePred p] :
    ((Finset.range n).erase i).filter (fun j => p (Function.update f i w j)) =
      ((Finset.range n).erase i).filter (fun j => p (f j)) := by
  apply Finset.filter_congr
  intro j hj
  have hne : j ≠ i := (Finset.mem_erase.mp hj).1
  rw [Function.update_noteq hne]

/-- Cards of a pointwise-defined filter before and after updating one
worker: both are the card over the other workers plus the contribution
of worker `i`. -/
theorem card_filter_update (n i : Nat) (hin : i < n) (f : Nat → Worker) (w : Worker)
    (p : Worker → Prop) [DecidablePred p] :
    ((Finset.range n).filter (fun j => p (Function.update f i w j))).card =
      (((Finset.range n).erase i).filter (fun j => p (f j))).card +
        (if p w then 1 else 0) := by
  rw [card_filter_split n i hin (fun j => p (Function.update f i w j)),
    filter_erase_update n i f w p, Function.update_same]

/-- Machine invariant: the counter counts the workers past their
increment; each result signal is emitted exactly once per started
worker; the counter values read by the started workers are exactly
`1..counter`, one each; and the progress signals emitted are exactly
the read values of the workers that finished. -/
def SchedInv (n : Nat) (s : SchedSt) : Prop :=
  s.counter = ((Finset.range n).filter (fun j => 2 ≤ (s.ws j).pc)).card ∧
  (∀ idx, List.count (SEv.result idx) s.trace =
    if idx < n ∧ 1 ≤ (s.ws idx).pc then 1 else 0) ∧
  (∀ v, ((Finset.range n).filter
      (fun j => 2 ≤ (s.ws j).pc ∧ (s.ws j).cur = v)).card =
    if 1 ≤ v ∧ v ≤ s.counter then 1 else 0) ∧
  (∀ v, List.count (SEv.progress v) s.trace =
    ((Finset.range n).filter (fun j => (s.ws j).pc = 3 ∧ (s.ws j).cur = v)).card)

theorem schedInv_init (n : Nat) : SchedInv n schedInit := by
  refine ⟨?_, ?_, ?_, ?_⟩
  · simp [schedInit]
  · intro idx; simp [schedInit]
  · intro v
    have : ¬ (1 ≤ v ∧ v ≤ (schedInit).counter) := by
      rintro ⟨hv1, hv2⟩
      simp only [schedInit] at hv2
      omega
    rw [if_neg this]
    simp [schedInit]
  · intro v; simp [schedInit]

theorem filter_update_congr (n i : Nat) (f : Nat → Worker) (w : Worker)
    (p : Worker → Prop) [DecidablePred p] (hiff : p w ↔ p (f i)) :
    (Finset.range n).filter (fun j => p (Function.update f i w j)) =
      (Finset.range n).filter (fun j => p (f j)) := by
  apply Finset.filter_congr
  intro j _
  by_cases hj : j = i
  · subst hj
    rw [Function.update_same]
    exact hiff
  · rw [Function.update_noteq hj]

theorem schedInv_wstep (n : Nat) (s : SchedSt) (i : Nat) (h : SchedInv n s) :
    SchedInv n (wstep n s i) := by
  obtain ⟨h1, h2, h3, h4⟩ := h
  by_cases hin : i < n
  · rcases hpc : (s.ws i).pc with _ | _ | _ | pc3
    · -- pc = 0 : emit the result signal
      have hws : wstep n s i =
          { ws := Function.update s.ws i ⟨1, (s.ws i).cur⟩, counter := s.counter,
            trace := s.trace ++ [SEv.result i] } := by
        simp only [wstep, if_pos hin, hpc]
      rw [hws]
      refine ⟨?_, ?_, ?_, ?_⟩ <;> dsimp only
      · rw [filter_update_congr n i s.ws ⟨1, (s.ws i).cur⟩
          (fun w => 2 ≤ w.pc) (by simp [hpc])]
        exact h1
      · intro idx
        rw [List.count_append]
        by_cases hidx : idx = i
        · subst hidx
          have hz : List.count (SEv.result idx) s.trace = 0 := by
            rw [h2 idx, hpc, if_neg (by omega)]
          rw [hz, Function.update_same]
          simp [hin]
        · rw [Function.update_noteq hidx]
          have hz : List.count (SEv.result idx) [SEv.result i] = 0 := by
            simp [hidx]
          rw [hz, Nat.add_zero, h2 idx]
      · intro v
        rw [filter_update_congr n i s.ws ⟨1, (s.ws i).cur⟩
          (fun w => 2 ≤ w.pc ∧ w.cur = v) (by simp [hpc])]
        exact h3 v
      · intro v
        rw [List.count_append]
        have hz : List.count (SEv.progress v) [SEv.result i] = 0 := by simp
        rw [hz, Nat.add_zero]
        rw [filter_update_congr n i s.ws ⟨1, (s.ws i).cur⟩
          (fun w => w.pc = 3 ∧ w.cur = v) (by simp [hpc])]
        exact h4 v
    · -- pc = 1 : atomically increment and read the counter
      have hws : wstep n s i =
          { ws := Function.update s.ws i ⟨2, s.counter + 1⟩,
            counter := s.counter + 1, trace := s.trace } := by
        simp only [wstep, if_pos hin, hpc]
      rw [hws]
      refine ⟨?_, ?_, ?_, ?_⟩ <;> dsimp only
      · have enew := card_filter_update n i hin s.ws ⟨2, s.counter + 1⟩
          (fun w => 2 ≤ w.pc)
        have eold := card_filter_split n i hin (fun j => 2 ≤ (s.ws j).pc)
        rw [hpc] at eold
        norm_num at enew eold
        omega
      · intro idx
        by_cases hidx : idx = i
        · subst hidx
          rw [Function.update_same, h2 idx, hpc]
          simp [hin]
        · rw [Function.update_noteq hidx]
          exact h2 idx
      · intro v
        have enew := card_filter_update n i hin s.ws ⟨2, s.counter + 1⟩
          (fun w => 2 ≤ w.pc ∧ w.cur = v)
        have eold := card_filter_split n i hin
          (fun j => 2 ≤ (s.ws j).pc ∧ (s.ws j).cur = v)
        rw [hpc] at eold
        norm_num at enew eold
        have h3v := h3 v
        by_cases hv : s.counter + 1 = v
        · rw [if_pos hv] at enew
          rw [if_neg (by omega)] at h3v
          rw [if_pos (by omega)]
          omega
        · rw [if_neg hv] at enew
          have hiff : (1 ≤ v ∧ v ≤ s.counter + 1) ↔ (1 ≤ v ∧ v ≤ s.counter) := by
            omega
          rw [if_congr hiff rfl rfl, ← h3v]
          omega
      · intro v
        rw [filter_update_congr n i s.ws ⟨2, s.counter + 1⟩
          (fun w => w.pc = 3 ∧ w.cur = v) (by simp [hpc])]
        exact h4 v
    · -- pc = 2 : emit the progress signal with the read value
      have hws : wstep n s i =
          { ws := Function.update s.ws i ⟨3, (s.ws i).cur⟩, counter := s.counter,
            trace := s.trace ++ [SEv.progress (s.ws i).cur] } := by
        simp only [wstep, if_pos hin, hpc]
      rw [hws]
      refine ⟨?_, ?_, ?_, ?_⟩ <;> dsimp only
      · rw [filter_update_congr n i s.ws ⟨3, (s.ws i).cur⟩
          (fun w => 2 ≤ w.pc) (by simp [hpc])]
        exact h1
      · intro idx
        rw [List.count_append]
        have hz : List.count (SEv.result idx) [SEv.progress (s.ws i).cur] = 0 := by
          simp
        rw [hz, Nat.add_zero, h2 idx]
        by_cases hidx : idx = i
        · subst hidx
          rw [Function.update_same, hpc]
          simp [hin]
        · rw [Function.update_noteq hidx]
      · intro v
        rw [filter_update_congr n i s.ws ⟨3, (s.ws i).cur⟩
          (fun w => 2 ≤ w.pc ∧ w.cur = v) (by simp [hpc])]
        exact h3 v
      · intro v
        rw [List.count_append]
        have enew := card_filter_update n i hin s.ws ⟨3, (s.ws i).cur⟩
          (fun w => w.pc = 3 ∧ w.cur = v)
        have eold := card_filter_split n i hin
          (fun j => (s.ws j).pc = 3 ∧ (s.ws j).cur = v)
        rw [hpc] at eold
        norm_num at enew eold
        have h4v := h4 v
        by_cases hv : (s.ws i).cur = v
        · rw [if_pos hv] at enew
          have hz : List.count (SEv.progress v) [SEv.progress (s.ws i).cur] = 1 := by
            simp [hv]
          rw [hz]
          omega
        · rw [if_neg hv] at enew
          have hz : List.count (SEv.progress v) [SEv.progress (s.ws i).cur] = 0 := by
            rw [List.count_singleton']
            simp [hv]
          rw [hz]
          omega
    · -- pc ≥ 3 : the worker is done, no step
      have hws : wstep n s i = s := by
        simp only [wstep, if_pos hin, hpc]
      rw [hws]
      exact ⟨h1, h2, h3, h4⟩
  · have hws : wstep n s i = s := by
      simp only [wstep, if_neg hin]
    rw [hws]
    exact ⟨h1, h2, h3, h4⟩

theorem schedInv_runSched (n : Nat) (sched : List Nat) :
    SchedInv n (runSched n sched) := by
  rw [runSched]
  induction sched using List.reverseRecOn with
  | nil => exact schedInv_init n
  | append_singleton l i ih =>
    rw [List.foldl_append, List.foldl_cons, List.foldl_nil]
    exact schedInv_wstep n _ i ih

/-! ## Claim theorems -/

/-- Oracle on which every TCP probe fails, each attempt with its own
distinct error message. -/
def c1net : Net :=
  { tcpConn := fun a => some (if a = 0 then ("err0") else if a = 1 then ("err1") else ("err2")),
    udpConv := fun _ => ⟨Except.error NetEx.timeout, Except.error NetEx.timeout,
      Except.error NetEx.timeout, Except.error NetEx.timeout⟩,
    http := fun _ _ => Except.error ("unreachable"),
    latency := fun _ _ => 0,
    geo := fun _ => ("", "") }

/-- C1 counterexample: on an endpoint whose last attempt fails with the
detail "err2", the final failure result's error field is the fixed
string "连接失败", not that detail — `check_socks5` hard-codes the
failure message and `test_proxy_connection` discards the per-attempt
errors. -/
theorem c1_error_is_generic_counterexample :
    c1net.tcpConn 2 = some ("err2") ∧
    (check_socks5 c1net ("1.2.3.4:1080")).1.ok = false ∧
    (check_socks5 c1net ("1.2.3.4:1080")).1.error = "连接失败" ∧
    ("连接失败" : String) ≠ "err2" := by
  refine ⟨by decide, by decide, by decide, by decide⟩

/-- C1 (amended): for every well-formed line whose check fails, the
returned failure result's error field is the fixed generic message
"连接失败"; the per-attempt error details are discarded. -/
theorem c1_last_error_amended (net : Net) (proxy : String)
    (hlen : (parseProxy proxy).length = 2 ∨ (parseProxy proxy).length = 4)
    (hok : (check_socks5 net proxy).1.ok = false) :
    (check_socks5 net proxy).1.error = "连接失败" := by
  rcases hp : parseProxy proxy with _ | ⟨a, _ | ⟨b, _ | ⟨c, _ | ⟨d, _ | ⟨e, tl⟩⟩⟩⟩⟩
  · rcases hlen with h | h <;> (rw [hp] at h; simp at h)
  · rcases hlen with h | h <;> (rw [hp] at h; simp at h)
  · simp only [check_socks5, hp] at hok ⊢
    by_cases ho : (test_proxy_connection net a b none none 3).1.ok = true
    · simp [buildResult, ho] at hok
    · simp only [Bool.not_eq_true] at ho
      simp [buildResult, ho]
  · rcases hlen with h | h <;> (rw [hp] at h; simp at h)
  · simp only [check_socks5, hp] at hok ⊢
    by_cases ho : (test_proxy_connection net a b (some c) (some d) 3).1.ok = true
    · simp [buildResult, ho] at hok
    · simp only [Bool.not_eq_true] at ho
      simp [buildResult, ho]
  · rcases hlen with h | h <;> (rw [hp] at h; simp at h)

/-- C1 amended witness at a concrete failing endpoint. -/
theorem c1_last_error_amended_witness :
    (check_socks5 c1net ("1.2.3.4:1080")).1.error = "连接失败" :=
  c1_last_error_amended c1net ("1.2.3.4:1080") (Or.inl (by decide)) (by decide)

/-- C2: an input line splitting into neither 2 nor 4 fields yields the
format-error result immediately — the result does not depend on the
network oracle and the event trace is empty (no socket or HTTP call). -/
theorem c2_format_error (net : Net) (proxy : String)
    (h2 : (parseProxy proxy).length ≠ 2) (h4 : (parseProxy proxy).length ≠ 4) :
    check_socks5 net proxy =
      ({ proxy := proxy, ok := false, ip := "", country := "未知", region := "未知",
         latency := none, tcp_enabled := false, udp_enabled := false,
         error := "格式错误" }, []) := by
  rcases hp : parseProxy proxy with _ | ⟨a, _ | ⟨b, _ | ⟨c, _ | ⟨d, _ | ⟨e, tl⟩⟩⟩⟩⟩
  · simp [check_socks5, hp]
  · simp [check_socks5, hp]
  · exact absurd (by rw [hp]; rfl) h2
  · simp [check_socks5, hp]
  · exact absurd (by rw [hp]; rfl) h4
  · simp [check_socks5, hp]

/-- C2 witness: a three-field line is rejected without any probe. -/
theorem c2_format_error_witness :
    check_socks5 c1net ("1.2.3.4|1080|user") =
      ({ proxy := "1.2.3.4|1080|user", ok := false, ip := "", country := "未知",
         region := "未知", latency := none, tcp_enabled := false,
         udp_enabled := false, error := "格式错误" }, []) :=
  c2_format_error c1net ("1.2.3.4|1080|user") (by decide) (by decide)

/-- UDP ASSOCIATE reply of only 4 bytes. -/
def c5convShort : UdpConv :=
  ⟨Except.ok (), Except.ok [5, 0], Except.ok [], Except.ok [5, 0, 0, 1]⟩

/-- UDP ASSOCIATE reply of 6 bytes whose version byte is not 5. -/
def c5convBadVer : UdpConv :=
  ⟨Except.ok (), Except.ok [5, 0], Except.ok [], Except.ok [4, 0, 0, 1, 0, 0]⟩

/-- C5 counterexample: a 4-byte reply and a wrong-version reply both
fail, but with two different error strings — there is no single
"invalid response" message covering both conditions, and the 4-byte
reply's error is the too-short message, not the invalid-response one. -/
theorem c5_invalid_response_counterexample :
    udp_connect_test c5convShort none none = (false, "UDP ASSOCIATE响应太短") ∧
    udp_connect_test c5convBadVer none none = (false, "无效的SOCKS5响应") ∧
    ("UDP ASSOCIATE响应太短" : String) ≠ "无效的SOCKS5响应" := by
  refine ⟨by decide, by decide, by decide⟩

/-- The handshake preceding the UDP ASSOCIATE read succeeded: either the
proxy chose no-auth, or it chose username/password with truthy
credentials and replied status 0 to the subnegotiation. -/
def preAssocPath (conv : UdpConv) (user pwd : Option String) : Prop :=
  conv.connect = Except.ok () ∧
  (conv.methodReply = Except.ok [5, 0] ∨
    (conv.methodReply = Except.ok [5, 2] ∧ credTruthy user = true ∧
      credTruthy pwd = true ∧ ∃ a0, conv.authReply = Except.ok [a0, 0]))

/-- C5 (amended): a UDP ASSOCIATE reply shorter than 6 bytes yields
`udpOk = false` with the error "UDP ASSOCIATE响应太短", and a reply of
at least 6 bytes whose first byte is not 5 yields `udpOk = false` with
the error "无效的SOCKS5响应"; no fault escapes (the probe is a total
function). -/
theorem c5_assoc_reply_amended (conv : UdpConv) (user pwd : Option String)
    (r : List Nat) (hpre : preAssocPath conv user pwd)
    (ha : conv.assocReply = Except.ok r) :
    (r.length < 6 → udp_connect_test conv user pwd = (false, "UDP ASSOCIATE响应太短")) ∧
    (6 ≤ r.length → r.getD 0 0 ≠ 5 →
      udp_connect_test conv user pwd = (false, "无效的SOCKS5响应")) := by
  obtain ⟨hc, hm⟩ := hpre
  have hassoc : udp_connect_test conv user pwd = assocPhase conv := by
    rcases hm with hm | ⟨hm, hu, hp2, a0, hauth⟩
    · simp [udp_connect_test, hc, hm]
    · simp [udp_connect_test, hc, hm, hu, hp2, hauth]
  have hred : assocPhase conv =
      (if r.length < 6 then ((false : Bool), "UDP ASSOCIATE响应太短")
       else if r.getD 0 0 ≠ 5 then (false, "无效的SOCKS5响应")
       else if r.getD 1 0 = 0 then (true, "UDP代理支持确认")
       else (false, ("UDP ASSOCIATE失败: ") ++ udpErrName (r.getD 1 0))) := by
    rw [assocPhase.eq_def, ha]
  rw [hassoc, hred]
  constructor
  · intro hlen
    rw [if_pos hlen]
  · intro hlen hv
    rw [if_neg (by omega), if_pos hv]

/-- C5 amended witness at the 4-byte reply. -/
theorem c5_assoc_reply_amended_witness :
    udp_connect_test c5convShort none none = (false, "UDP ASSOCIATE响应太短") :=
  (c5_assoc_reply_amended c5convShort none none [5, 0, 0, 1]
    ⟨rfl, Or.inl rfl⟩ rfl).1 (by decide)

/-- A found city record that has no subdivisions. -/
def c8city : GeoCity :=
  { countryZh := some ("德国"), countryName := "Germany",
    hasSubdivisions := false, subdivZh := none, subdivName := "" }

/-- C8 counterexample: a successful lookup whose record has no
subdivision yields region `""`, not the sentinel "未知" (and the
country is not the sentinel either), so "both fields fall back to
unknown on a missing subdivision" fails on the code. -/
theorem c8_missing_subdivision_counterexample :
    get_location (some (fun _ => Except.ok c8city)) ("203.0.113.5") = ("德国", "") ∧
    ("" : String) ≠ "未知" := by
  refine ⟨rfl, by decide⟩

/-- C8 (amended): the lookup is total and never fails outward; with no
reader, or when `reader.city` raises (bad IP, closed database), both
fields are the sentinel "未知"; on a successful lookup the country is
the `zh-CN` name or the default name, and the region likewise when a
subdivision exists — but the empty string, not the sentinel, when the
record has no subdivisions. -/
theorem c8_geo_fallback_amended :
    (∀ ip, get_location none ip = ("未知", "未知")) ∧
    (∀ (f : String → Except Unit GeoCity) ip, f ip = Except.error () →
      get_location (some f) ip = ("未知", "未知")) ∧
    (∀ (f : String → Except Unit GeoCity) ip c, f ip = Except.ok c →
      get_location (some f) ip =
        (c.countryZh.getD c.countryName,
         if c.hasSubdivisions then c.subdivZh.getD c.subdivName else (""))) := by
  refine ⟨fun ip => rfl, ?_, ?_⟩
  · intro f ip hf
    simp [get_location, hf]
  · intro f ip c hf
    simp [get_location, hf]

/-- A proxy whose method-selection reply chooses username/password. -/
def c10conv : UdpConv :=
  ⟨Except.ok (), Except.ok [5, 2], Except.ok [], Except.ok []⟩

/-- C10: when the endpoint has no credentials but the proxy selects
username/password authentication (method 2), the probe fails with the
authentication-required error, without attempting the subnegotiation
(the result does not depend on the auth or associate replies). -/
theorem c10_auth_required_no_creds (conv : UdpConv)
    (hc : conv.connect = Except.ok ())
    (hm : conv.methodReply = Except.ok [5, 2]) :
    udp_connect_test conv none none = (false, "需要用户名/密码认证") := by
  simp [udp_connect_test, hc, hm, credTruthy]

/-- C10 witness at a concrete conversation. -/
theorem c10_auth_required_no_creds_witness :
    udp_connect_test c10conv none none = (false, "需要用户名/密码认证") :=
  c10_auth_required_no_creds c10conv rfl rfl

theorem boolEqOfIff {x y : Bool} (h : x = true ↔ y = true) : x = y := by
  cases x <;> cases y <;> simp_all

/-- Oracle for a proxy that is TCP-reachable with a working egress but a
proxy-side failure on the UDP conversation. -/
def c3net : Net :=
  { tcpConn := fun _ => none,
    udpConv := fun _ => ⟨Except.error NetEx.timeout, Except.error NetEx.timeout,
      Except.error NetEx.timeout, Except.error NetEx.timeout⟩,
    http := fun _ _ => Except.ok ⟨200, "9.9.9.9"⟩,
    latency := fun _ _ => 42,
    geo := fun _ => ("X", "Y") }

/-- C3: the final `ok` is true exactly when some attempt within the
3-attempt budget has both a TCP-probe success and an egress endpoint
answering HTTP 200; `ok` is unchanged under any change of the UDP
conversation oracle; and `ok = true` together with
`udpEnabled = false` is realisable. -/
theorem c3_ok_characterization (net : Net) (ip port : String) (user pwd : Option String) :
    ((test_proxy_connection net ip port user pwd 3).1.ok = true ↔
      ∃ k, k < 3 ∧ tcpOkB net k = true ∧ egressHitB net k 0 test_endpoints = true) ∧
    (∀ net2 : Net, net2.tcpConn = net.tcpConn → net2.http = net.http →
      (test_proxy_connection net2 ip port user pwd 3).1.ok =
        (test_proxy_connection net ip port user pwd 3).1.ok) ∧
    ((test_proxy_connection c3net ip port user pwd 3).1.ok = true ∧
      (test_proxy_connection c3net ip port user pwd 3).1.udpEnabled = false) := by
  have hchar : ∀ m : Net, (test_proxy_connection m ip port user pwd 3).1.ok = true ↔
      ∃ k, k < 3 ∧ tcpOkB m k = true ∧ egressHitB m k 0 test_endpoints = true := by
    intro m
    have := tpcLoop_ok_iff m user pwd 3 0 false false
    simpa [test_proxy_connection] using this
  refine ⟨hchar net, ?_, rfl, rfl⟩
  intro net2 htcp hhttp
  apply boolEqOfIff
  rw [hchar net2, hchar net]
  have ht : ∀ k, tcpOkB net2 k = tcpOkB net k := by
    intro k
    simp [tcpOkB, tcp_connect_test, htcp]
  have he : ∀ (eps : List Endpoint) (j k : Nat),
      egressHitB net2 k j eps = egressHitB net k j eps := by
    intro eps
    induction eps with
    | nil => intro j k; rfl
    | cons ep rest ih =>
      intro j k
      simp [egressHitB, ep200, hhttp, ih]
  constructor
  · rintro ⟨k, hk, h1, h2⟩
    exact ⟨k, hk, by rw [← ht k]; exact h1, by rw [← he]; exact h2⟩
  · rintro ⟨k, hk, h1, h2⟩
    exact ⟨k, hk, by rw [ht k]; exact h1, by rw [he]; exact h2⟩

/-- C4: retry discipline of the orchestrator — (a) if every attempt's
TCP probe fails, exactly three TCP probes happen, nothing else runs,
and the result is the failure tuple with `tcpEnabled = false`; (b) an
attempt whose TCP probe fails contributes no UDP, HTTP or geolocation
events, only its TCP probe; (c) if some attempt within the budget has a
TCP success and an egress hit, the run ends successfully and no event
of a later attempt ever occurs (first egress success short-circuits). -/
theorem c4_retry_discipline (net : Net) (ip port : String) (user pwd : Option String) :
    ((∀ k, k < 3 → tcpOkB net k = false) →
      test_proxy_connection net ip port user pwd 3 =
        (⟨false, "", "", "", 0, false, false⟩,
         [Ev.tcpProbe 0, Ev.tcpProbe 1, Ev.tcpProbe 2])) ∧
    (∀ i, tcpOkB net i = false →
      ∀ e ∈ (test_proxy_connection net ip port user pwd 3).2,
        evAttempt e = i → e = Ev.tcpProbe i) ∧
    (∀ k, k < 3 → tcpOkB net k = true → egressHitB net k 0 test_endpoints = true →
      (test_proxy_connection net ip port user pwd 3).1.ok = true ∧
      ∀ e ∈ (test_proxy_connection net ip port user pwd 3).2, evAttempt e ≤ k) := by
  refine ⟨?_, ?_, ?_⟩
  · intro hfail
    have h := tpcLoop_alltcpfail net user pwd 3 0 false false
      (fun k hk => by simpa using hfail k hk)
    rw [test_proxy_connection, h]
    decide
  · intro i hi e he hatt
    have h := tpcLoop_ev net user pwd 3 0 false false e
      (by simpa [test_proxy_connection] using he)
    have h2 := h.2
    rw [hatt] at h2
    exact h2 hi
  · intro k hk htcp hhit
    constructor
    · rw [test_proxy_connection, tpcLoop_ok_iff]
      exact ⟨k, hk, by simpa using htcp, by simpa using hhit⟩
    · intro e he
      exact tpcLoop_shortcircuit net user pwd 3 0 false false k (by omega)
        (by omega) htcp hhit e (by simpa [test_proxy_connection] using he)

/-- Oracle whose middle attempt is TCP-reachable with a working UDP
ASSOCIATE but no egress, and whose other attempts are TCP-unreachable. -/
def c6net : Net :=
  { tcpConn := fun a => if a = 1 then none else some ("refused"),
    udpConv := fun _ => ⟨Except.ok (), Except.ok [5, 0], Except.ok [],
      Except.ok [5, 0, 0, 1, 0, 0]⟩,
    http := fun _ _ => Except.error ("egress down"),
    latency := fun _ _ => 0,
    geo := fun _ => ("", "") }

/-- C6: when the final result has `ok = false`, its `tcpEnabled` is the
last (third) attempt's TCP outcome, and its `udpEnabled` is the outcome
of the UDP probe in the last attempt whose TCP probe succeeded (the UDP
probe only runs then), `false` if no attempt's TCP probe succeeded —
the two flags need not come from the same attempt. -/
theorem c6_last_attempt_flags (net : Net) (ip port : String) (user pwd : Option String)
    (hok : (test_proxy_connection net ip port user pwd 3).1.ok = false) :
    (test_proxy_connection net ip port user pwd 3).1.tcpEnabled = tcpOkB net 2 ∧
    (test_proxy_connection net ip port user pwd 3).1.udpEnabled =
      (if tcpOkB net 2 = true then udpOkB net user pwd 2
       else if tcpOkB net 1 = true then udpOkB net user pwd 1
       else if tcpOkB net 0 = true then udpOkB net user pwd 0
       else false) := by
  have h := tpcLoop_fail_outcome net user pwd 3 0 false false
    (by simpa [test_proxy_connection] using hok)
  rw [test_proxy_connection, h]
  exact ⟨rfl, rfl⟩

/-- C6 witness: on `c6net` the flags mix attempts — `tcpEnabled` comes
from the failing third attempt while `udpEnabled` comes from the
successful UDP probe of the second. -/
theorem c6_last_attempt_flags_witness :
    (test_proxy_connection c6net ("h") ("p") none none 3).1.tcpEnabled = tcpOkB c6net 2 ∧
    (test_proxy_connection c6net ("h") ("p") none none 3).1.udpEnabled =
      (if tcpOkB c6net 2 = true then udpOkB c6net none none 2
       else if tcpOkB c6net 1 = true then udpOkB c6net none none 1
       else if tcpOkB c6net 0 = true then udpOkB c6net none none 0
       else false) :=
  c6_last_attempt_flags c6net ("h") ("p") none none (by decide)

/-- Endpoint number `m` would answer attempt `a` with HTTP 200. -/
def http200 (net : Net) (a m : Nat) : Bool :=
  match net.http a m with
  | Except.error _ => false
  | Except.ok resp => decide (resp.status = 200)

theorem try_endpoints_first_general (net : Net) (a : Nat) :
    ∀ (eps : List Endpoint) (j k : Nat) (resp : HttpResp),
      (∀ ep ∈ eps, ep.ty = "text") →
      k < eps.length →
      net.http a (j + k) = Except.ok resp →
      resp.status = 200 →
      (∀ m, m < k → http200 net a (j + m) = false) →
      try_endpoints net a j eps =
        (some (pyStrip resp.body, (net.geo (pyStrip resp.body)).1,
          (net.geo (pyStrip resp.body)).2, net.latency a (j + k)),
         ((eps.take (k + 1)).map (fun ep => Ev.httpGet a ep.url)) ++
           [Ev.geoLookup a (pyStrip resp.body)]) := by
  intro eps
  induction eps with
  | nil =>
    intro j k resp _ hk
    simp at hk
  | cons ep rest ih =>
    intro j k resp hty hk hresp h200 hfirst
    cases k with
    | zero =>
      rw [Nat.add_zero] at hresp
      have htyh : ep.ty = "text" := hty ep (List.mem_cons_self ep rest)
      simp only [try_endpoints, hresp, h200, htyh, if_pos, if_true, Nat.add_zero]
      rfl
    | succ k' =>
      have hne : http200 net a (j + 0) = false := hfirst 0 (by omega)
      rw [Nat.add_zero] at hne
      have harith : ∀ x : Nat, j + 1 + x = j + (x + 1) := by intro x; omega
      have hstep : try_endpoints net a (j + 1) rest =
          (some (pyStrip resp.body, (net.geo (pyStrip resp.body)).1,
            (net.geo (pyStrip resp.body)).2, net.latency a (j + (k' + 1))),
           ((rest.take (k' + 1)).map (fun ep => Ev.httpGet a ep.url)) ++
             [Ev.geoLookup a (pyStrip resp.body)]) := by
        have := ih (j + 1) k' resp (fun e he => hty e (List.mem_cons_of_mem ep he))
          (by simpa using hk) (by rw [harith k']; exact hresp) h200
          (fun m hm => by rw [harith m]; exact hfirst (m + 1) (by omega))
        rw [harith k'] at this
        exact this
      cases hh : net.http a j with
      | error err =>
        simp only [try_endpoints, hh, hstep]
        rfl
      | ok r2 =>
        have hr2 : ¬ r2.status = 200 := by
          rw [http200, hh] at hne
          simpa using hne
        simp only [try_endpoints, hh, if_neg hr2, hstep]
        rfl

/-- C7: within one attempt, the egress scan tries the five fixed
endpoints in list order; it stops at the first HTTP 200 reply, whose
stripped body becomes the egress IP, the latency of that endpoint is
returned, the geolocation lookup runs exactly once — on the stripped
body — and the trace is exactly one GET per endpoint up to and
including the hit, in list order, followed by that single lookup. -/
theorem c7_egress_first_hit (net : Net) (a k : Nat) (resp : HttpResp)
    (hk : k < 5)
    (hresp : net.http a k = Except.ok resp)
    (h200 : resp.status = 200)
    (hfirst : ∀ m, m < k → http200 net a m = false) :
    try_endpoints net a 0 test_endpoints =
      (some (pyStrip resp.body, (net.geo (pyStrip resp.body)).1,
        (net.geo (pyStrip resp.body)).2, net.latency a k),
       ((test_endpoints.take (k + 1)).map (fun ep => Ev.httpGet a ep.url)) ++
         [Ev.geoLookup a (pyStrip resp.body)]) := by
  have h := try_endpoints_first_general net a test_endpoints 0 k resp
    (by decide) (by simpa [test_endpoints] using hk)
    (by rw [Nat.zero_add]; exact hresp) h200
    (fun m hm => by rw [Nat.zero_add]; exact hfirst m hm)
  rw [Nat.zero_add] at h
  exact h

/-- Oracle on which the first four egress endpoints fail and the fifth
answers 200 with a padded IP body. -/
def c7net : Net :=
  { tcpConn := fun _ => none,
    udpConv := fun _ => ⟨Except.error NetEx.timeout, Except.error NetEx.timeout,
      Except.error NetEx.timeout, Except.error NetEx.timeout⟩,
    http := fun _ j => if j = 4 then Except.ok ⟨200, " 203.0.113.5\n"⟩
      else Except.error ("down"),
    latency := fun _ _ => 7,
    geo := fun ip => if ip = "203.0.113.5" then ("US", "CA") else ("", "") }

/-- C7 witness: first four endpoints down, fifth answers 200 with body
" 203.0.113.5\n". -/
theorem c7_egress_first_hit_witness :
    try_endpoints c7net 0 0 test_endpoints =
      (some (pyStrip (" 203.0.113.5\n"),
        (c7net.geo (pyStrip (" 203.0.113.5\n"))).1,
        (c7net.geo (pyStrip (" 203.0.113.5\n"))).2, c7net.latency 0 4),
       ((test_endpoints.take 5).map (fun ep => Ev.httpGet 0 ep.url)) ++
         [Ev.geoLookup 0 (pyStrip (" 203.0.113.5\n"))]) :=
  c7_egress_first_hit c7net 0 4 ⟨200, " 203.0.113.5\n"⟩ (by decide) rfl
    rfl (by decide)

/-- C9 counterexample: with two workers, the interleaving that lets the
second worker emit its progress signal before the first one (both
already past their increments) produces the progress sequence `[2, 1]`,
which is not non-decreasing — the emission happens outside the mutex. -/
theorem c9_progress_order_counterexample :
    progressVals (runSched 2 [0, 0, 1, 1, 1, 0]).trace = [2, 1] ∧
    nondecreasing (progressVals (runSched 2 [0, 0, 1, 1, 1, 0]).trace) = false := by
  refine ⟨by decide, by decide⟩

/-- C9 (amended): under every complete interleaving of a batch of `n`
inputs, each index's result signal is emitted exactly once, each
progress value `1..n` is emitted exactly once (so the counter reaches
`n` exactly when all items complete), and the counter ends at `n`; the
emission order of the progress values, however, need not be
non-decreasing. -/
theorem c9_scheduler_amended (n : Nat) (sched : List Nat)
    (hc : SchedComplete n (runSched n sched)) :
    (∀ idx, idx < n →
      List.count (SEv.result idx) (runSched n sched).trace = 1) ∧
    (∀ v, 1 ≤ v → v ≤ n →
      List.count (SEv.progress v) (runSched n sched).trace = 1) ∧
    (runSched n sched).counter = n := by
  obtain ⟨h1, h2, h3, h4⟩ := schedInv_runSched n sched
  have hcounter : (runSched n sched).counter = n := by
    rw [h1]
    have hall : ∀ j ∈ Finset.range n, 2 ≤ ((runSched n sched).ws j).pc := by
      intro j hj
      rw [hc j (Finset.mem_range.mp hj)]
      omega
    rw [Finset.filter_true_of_mem hall, Finset.card_range]
  refine ⟨?_, ?_, hcounter⟩
  · intro idx hidx
    rw [h2 idx, if_pos ⟨hidx, by rw [hc idx hidx]; omega⟩]
  · intro v hv1 hv2
    rw [h4 v]
    have heq : (Finset.range n).filter
        (fun j => ((runSched n sched).ws j).pc = 3 ∧ ((runSched n sched).ws j).cur = v) =
        (Finset.range n).filter
        (fun j => 2 ≤ ((runSched n sched).ws j).pc ∧ ((runSched n sched).ws j).cur = v) := by
      apply Finset.filter_congr
      intro j hj
      rw [hc j (Finset.mem_range.mp hj)]
      constructor
      · rintro ⟨_, hcur⟩
        exact ⟨by omega, hcur⟩
      · rintro ⟨_, hcur⟩
        exact ⟨rfl, hcur⟩
    rw [heq, h3 v, hcounter, if_pos ⟨hv1, hv2⟩]

/-- C9 amended witness at a concrete complete two-worker schedule. -/
theorem c9_scheduler_amended_witness :
    List.count (SEv.result 0) (runSched 2 [0, 0, 0, 1, 1, 1]).trace = 1 ∧
    List.count (SEv.progress 2) (runSched 2 [0, 0, 0, 1, 1, 1]).trace = 1 ∧
    (runSched 2 [0, 0, 0, 1, 1, 1]).counter = 2 := by
  have hcomp : ∀ i, i < 2 → ((runSched 2 [0, 0, 0, 1, 1, 1]).ws i).pc = 3 := by
    decide
  have h := c9_scheduler_amended 2 [0, 0, 0, 1, 1, 1] hcomp
  exact ⟨h.1 0 (by omega), h.2.1 2 (by omega) (by omega), h.2.2⟩

end Socks5Check
